import Mathlib

/-!
Verification of the gastown-viewer-intent dependency-graph builder,
DOT renderer, HTTP graph handler, and SSE broker, as a shallow
embedding of the Go source (internal/model, internal/beads/adapter.go,
internal/api/handlers.go).

Go strings are modelled as lists of characters (`GString`), Go `int`
counters (only ever incremented from zero) as `Nat`, Go maps used as
sets as lists with decidable membership, and fallible external calls
(JSON marshalling, the `bd blocked` subprocess query) as `Option`
parameters.
-/

/-- A Go string, modelled as its list of characters. -/
abbrev GString : Type := List Char

/-- Shorthand turning a Lean string literal into a `GString`. -/
def str (s : String) : GString := s.data

/-- Go `model.EdgeType` is a string type (`type EdgeType string`). -/
abbrev EdgeType : Type := GString

/-- `model.EdgeTypeBlocks = "blocks"`. -/
def EdgeTypeBlocks : EdgeType := str "blocks"

/-- `model.EdgeTypeBlockedBy = "blocked_by"`. -/
def EdgeTypeBlockedBy : EdgeType := str "blocked_by"

/-- `model.EdgeTypeParent = "parent"`. -/
def EdgeTypeParent : EdgeType := str "parent"

/-- `model.EdgeTypeChild = "child"`. -/
def EdgeTypeChild : EdgeType := str "child"

/-- `model.EdgeTypeWaitsFor = "waits_for"`. -/
def EdgeTypeWaitsFor : EdgeType := str "waits_for"

/-- `model.EdgeTypeWaitedBy = "waited_by"`. -/
def EdgeTypeWaitedBy : EdgeType := str "waited_by"

/-- `model.EdgeTypeConditional = "conditional_blocks"`. -/
def EdgeTypeConditional : EdgeType := str "conditional_blocks"

/-- `model.EdgeTypeRelates = "relates_to"`. -/
def EdgeTypeRelates : EdgeType := str "relates_to"

/-- `model.EdgeTypeDuplicates = "duplicates"`. -/
def EdgeTypeDuplicates : EdgeType := str "duplicates"

/-- `model.EdgeTypeMentions = "mentions"`. -/
def EdgeTypeMentions : EdgeType := str "mentions"

/-- `model.EdgeTypeDerivedFrom = "derived_from"`. -/
def EdgeTypeDerivedFrom : EdgeType := str "derived_from"

/-- `model.EdgeTypeSupersedes = "supersedes"`. -/
def EdgeTypeSupersedes : EdgeType := str "supersedes"

/-- `model.EdgeTypeImplements = "implements"`. -/
def EdgeTypeImplements : EdgeType := str "implements"

/-- `model.EdgeTypeUnknown = "unknown"`. -/
def EdgeTypeUnknown : EdgeType := str "unknown"

/-- Go `model.Status`, a string type. -/
abbrev Status : Type := GString

/-- Go `model.Priority`, a string type. -/
abbrev Priority : Type := GString

/-- Modelled from the spec: the status enum constants of `model.Status`
(the file declaring them is not under src/); the spec fixes the enum as
pending / in_progress / done / blocked. -/
def StatusPending : Status := str "pending"

/-- Modelled from the spec: see `StatusPending`. -/
def StatusInProgress : Status := str "in_progress"

/-- Modelled from the spec: see `StatusPending`. -/
def StatusDone : Status := str "done"

/-- Modelled from the spec: see `StatusPending`. -/
def StatusBlocked : Status := str "blocked"

/-- Go `model.GraphNode`: id, title, status, priority. -/
structure GraphNode where
  ID : GString
  Title : GString
  Status : Status
  Priority : Priority
deriving DecidableEq

/-- Go `model.GraphEdge`. Go field names are `From`, `To`, `Type`;
`Type` is renamed `EType` because `Type` is reserved in Lean. -/
structure GraphEdge where
  From : GString
  To : GString
  EType : EdgeType
deriving DecidableEq

/-- Go `model.GraphStats` (counts are Go ints only ever incremented
from zero, modelled as `Nat`). -/
structure GraphStats where
  NodeCount : Nat
  EdgeCount : Nat
  MaxDepth : Nat
deriving DecidableEq

/-- Go `model.Graph`. -/
structure Graph where
  Nodes : List GraphNode
  Edges : List GraphEdge
  Stats : GraphStats
deriving DecidableEq

/-- Go `model.NewGraph`: empty node and edge slices, zero stats. -/
def newGraph : Graph :=
  { Nodes := [], Edges := [], Stats := ⟨0, 0, 0⟩ }

/-- Go `(*Graph).AddNode`: append the node and increment `NodeCount`. -/
def Graph.addNode (g : Graph) (node : GraphNode) : Graph :=
  { g with
    Nodes := g.Nodes ++ [node]
    Stats := { g.Stats with NodeCount := g.Stats.NodeCount + 1 } }

/-- Go `(*Graph).AddEdge`: append the edge and increment `EdgeCount`. -/
def Graph.addEdge (g : Graph) (edge : GraphEdge) : Graph :=
  { g with
    Edges := g.Edges ++ [edge]
    Stats := { g.Stats with EdgeCount := g.Stats.EdgeCount + 1 } }

/-- One call against the graph's insertion interface. -/
inductive GraphOp where
  | addNode (n : GraphNode) : GraphOp
  | addEdge (e : GraphEdge) : GraphOp

/-- Run a sequence of `AddNode`/`AddEdge` calls against a graph. -/
def applyOps (g : Graph) : List GraphOp → Graph
  | [] => g
  | GraphOp.addNode n :: rest => applyOps (g.addNode n) rest
  | GraphOp.addEdge e :: rest => applyOps (g.addEdge e) rest

/-- The strings recognized by `mapDepTypeToEdgeType`'s switch cases. -/
def recognizedDepTypes : List GString :=
  [str "blocks", str "blocked_by", str "parent-child", str "parent",
   str "child", str "waits_for", str "waited_by",
   str "conditional_blocks", str "relates_to", str "duplicates",
   str "mentions", str "derived_from", str "supersedes",
   str "implements"]

/-- Go `mapDepTypeToEdgeType` (internal/beads/adapter.go): a switch on
the bd dependency-type string, defaulting to `EdgeTypeBlocks`. -/
def mapDepTypeToEdgeType (depType : GString) : EdgeType :=
  if depType = str "blocks" then EdgeTypeBlocks
  else if depType = str "blocked_by" then EdgeTypeBlockedBy
  else if depType = str "parent-child" ∨ depType = str "parent" then EdgeTypeParent
  else if depType = str "child" then EdgeTypeChild
  else if depType = str "waits_for" then EdgeTypeWaitsFor
  else if depType = str "waited_by" then EdgeTypeWaitedBy
  else if depType = str "conditional_blocks" then EdgeTypeConditional
  else if depType = str "relates_to" then EdgeTypeRelates
  else if depType = str "duplicates" then EdgeTypeDuplicates
  else if depType = str "mentions" then EdgeTypeMentions
  else if depType = str "derived_from" then EdgeTypeDerivedFrom
  else if depType = str "supersedes" then EdgeTypeSupersedes
  else if depType = str "implements" then EdgeTypeImplements
  else EdgeTypeBlocks

lemma applyOps_counts (ops : List GraphOp) :
    ∀ g : Graph,
      g.Nodes.length = g.Stats.NodeCount →
      g.Edges.length = g.Stats.EdgeCount →
      (applyOps g ops).Nodes.length = (applyOps g ops).Stats.NodeCount ∧
      (applyOps g ops).Edges.length = (applyOps g ops).Stats.EdgeCount := by
  induction ops with
  | nil => intro g hn he; exact ⟨hn, he⟩
  | cons op rest ih =>
    intro g hn he
    cases op with
    | addNode n =>
      exact ih (g.addNode n) (by simp [Graph.addNode, hn]) (by simp [Graph.addNode, he])
    | addEdge e =>
      exact ih (g.addEdge e) (by simp [Graph.addEdge, hn]) (by simp [Graph.addEdge, he])

/-- C9: after any sequence of `AddNode`/`AddEdge` calls starting from
`NewGraph`, `len(Nodes) == Stats.NodeCount` and
`len(Edges) == Stats.EdgeCount`; moreover each insertion method appends
exactly one element and increments exactly its own running tally. -/
theorem addnode_addedge_counts :
    (∀ ops : List GraphOp,
      (applyOps newGraph ops).Nodes.length = (applyOps newGraph ops).Stats.NodeCount ∧
      (applyOps newGraph ops).Edges.length = (applyOps newGraph ops).Stats.EdgeCount) ∧
    (∀ (g : Graph) (n : GraphNode),
      (g.addNode n).Nodes = g.Nodes ++ [n] ∧
      (g.addNode n).Edges = g.Edges ∧
      (g.addNode n).Stats.NodeCount = g.Stats.NodeCount + 1 ∧
      (g.addNode n).Stats.EdgeCount = g.Stats.EdgeCount) ∧
    (∀ (g : Graph) (e : GraphEdge),
      (g.addEdge e).Edges = g.Edges ++ [e] ∧
      (g.addEdge e).Nodes = g.Nodes ∧
      (g.addEdge e).Stats.EdgeCount = g.Stats.EdgeCount + 1 ∧
      (g.addEdge e).Stats.NodeCount = g.Stats.NodeCount) := by
  refine ⟨fun ops => applyOps_counts ops newGraph rfl rfl, ?_, ?_⟩
  · intro g n; exact ⟨rfl, rfl, rfl, rfl⟩
  · intro g e; exact ⟨rfl, rfl, rfl, rfl⟩

/-- C7: every dependency-type string outside the switch's recognized
names falls to the default case and is classified as "blocks"; the
mapping is a total function, so an unrecognized string can never fail
graph construction. -/
theorem unknown_deptype_maps_blocks (s : GString)
    (h : s ∉ recognizedDepTypes) :
    mapDepTypeToEdgeType s = EdgeTypeBlocks := by
  simp only [recognizedDepTypes, List.mem_cons, List.not_mem_nil, or_false,
    not_or] at h
  obtain ⟨h1, h2, h3, h4, h5, h6, h7, h8, h9, h10, h11, h12, h13, h14⟩ := h
  simp [mapDepTypeToEdgeType, h1, h2, h3, h4, h5, h6, h7, h8, h9, h10, h11,
    h12, h13, h14]

/-- Witness for C7 at the concrete unrecognized string "frobnicate". -/
theorem unknown_deptype_maps_blocks_witness :
    str "frobnicate" ∉ recognizedDepTypes ∧
    mapDepTypeToEdgeType (str "frobnicate") = EdgeTypeBlocks :=
  ⟨by decide, unknown_deptype_maps_blocks (str "frobnicate") (by decide)⟩

/-- One SSE subscriber endpoint: in Go a `chan []byte` of capacity 10.
`id` stands for the channel's identity, `buf` for the messages queued
in it, `cap` for its capacity. -/
structure Subscriber where
  id : Nat
  buf : List GString
  cap : Nat
deriving DecidableEq

/-- The broker state touched by the coordination loop: the live client
set (`b.clients`), plus a ledger of endpoints that have been closed
(`close(client)` calls), so that "never closes" is expressible. -/
structure BrokerState where
  clients : List Subscriber
  closedEndpoints : List Nat
deriving DecidableEq

/-- The `case client := <-b.register` arm of `SSEBroker.Start`:
add the client to the live set. -/
def handleRegister (st : BrokerState) (c : Subscriber) : BrokerState :=
  { st with clients := st.clients ++ [c] }

/-- The `case client := <-b.unregister` arm of `SSEBroker.Start`:
`if _, ok := b.clients[client]; ok { delete(b.clients, client);
close(client) }` — membership-guarded delete and close. -/
def handleUnregister (st : BrokerState) (cid : Nat) : BrokerState :=
  if cid ∈ st.clients.map Subscriber.id then
    { clients := st.clients.filter (fun c => ¬ c.id = cid)
      closedEndpoints := st.closedEndpoints ++ [cid] }
  else st

/-- The `case msg := <-b.broadcast` arm of `SSEBroker.Start`: a
non-blocking send to every live client (`select { case client <- msg:
default: }`); the send succeeds exactly when the channel buffer has
room, otherwise the message is skipped for that client. -/
def fanOut (clients : List Subscriber) (msg : GString) : List Subscriber :=
  clients.map (fun c =>
    if c.buf.length < c.cap then { c with buf := c.buf ++ [msg] } else c)

/-- The SSE wire format produced by `SSEBroker.Broadcast`:
`fmt.Sprintf("event: %s\ndata: %s\n\n", event.Type, data)`. -/
def sseFormat (eventType : GString) (data : GString) : GString :=
  str "event: " ++ eventType ++ str "\ndata: " ++ data ++ str "\n\n"

/-- Go `SSEBroker.Broadcast`: marshal the payload (`json.Marshal`,
modelled by its result, `none` on error), log and drop on failure,
otherwise submit the formatted message to the `b.broadcast` queue.
Returns the new queue and whether a marshal error was logged; the
return type has no error component, matching Go's `func (b *SSEBroker)
Broadcast(event model.Event)` with no return value. -/
def sseBroadcast (queue : List GString) (eventType : GString)
    (marshalResult : Option GString) : List GString × Bool :=
  match marshalResult with
  | none => (queue, true)
  | some data => (queue ++ [sseFormat eventType data], false)

/-- C2: `Broadcast` never surfaces an error. If the payload marshals,
exactly the bytes `event: <type>\ndata: <json>\n\n` are submitted to
the outbound queue; if marshalling fails, the error is logged, nothing
is submitted, and nothing is propagated. -/
theorem broadcast_no_error_exact_bytes (queue : List GString)
    (eventType : GString) :
    sseBroadcast queue eventType none = (queue, true) ∧
    (∀ data : GString,
      sseBroadcast queue eventType (some data) =
        (queue ++ [str "event: " ++ eventType ++ str "\ndata: " ++ data ++
          str "\n\n"], false)) :=
  ⟨rfl, fun _ => rfl⟩

/-- C3: fanning out a broadcast message keeps every live subscriber
(no one is removed or blocked on), appends the message to the buffer of
every subscriber with room, and leaves a subscriber with a full buffer
unchanged — the drop affects that subscriber alone, so the others still
receive the message. -/
theorem fanout_delivery (clients : List Subscriber) (msg : GString) :
    (fanOut clients msg).length = clients.length ∧
    ∀ pr ∈ List.zip clients (fanOut clients msg),
      (pr.1.buf.length < pr.1.cap →
        pr.2 = { pr.1 with buf := pr.1.buf ++ [msg] }) ∧
      (¬ pr.1.buf.length < pr.1.cap → pr.2 = pr.1) := by
  constructor
  · simp [fanOut]
  · induction clients with
    | nil => simp [fanOut]
    | cons c rest ih =>
      intro pr hpr
      simp only [fanOut, List.map_cons, List.zip_cons_cons, List.mem_cons] at hpr
      rcases hpr with h | h
      · subst h
        constructor
        · intro hroom; simp [if_pos hroom]
        · intro hfull; simp [if_neg hfull]
      · exact ih pr (by simpa [fanOut] using h)

/-- Witness for C3: two subscribers, one with room and one full; both
stay in the live set, the first receives the message, the second is
left unchanged. -/
theorem fanout_delivery_witness :
    (fanOut [⟨1, [], 10⟩, ⟨2, [str "a"], 1⟩] (str "m")).length =
      ([⟨1, [], 10⟩, ⟨2, [str "a"], 1⟩] : List Subscriber).length ∧
    ((⟨1, [], 10⟩ : Subscriber), (⟨1, [str "m"], 10⟩ : Subscriber)).2 =
      { (⟨1, [], 10⟩ : Subscriber) with
          buf := (⟨1, [], 10⟩ : Subscriber).buf ++ [str "m"] } ∧
    ((⟨2, [str "a"], 1⟩ : Subscriber), (⟨2, [str "a"], 1⟩ : Subscriber)).2 =
      (⟨2, [str "a"], 1⟩ : Subscriber) := by
  have h := fanout_delivery [⟨1, [], 10⟩, ⟨2, [str "a"], 1⟩] (str "m")
  refine ⟨h.1, ?_, ?_⟩
  · exact (h.2 ((⟨1, [], 10⟩ : Subscriber), (⟨1, [str "m"], 10⟩ : Subscriber))
      (by decide)).1 (by decide)
  · exact (h.2 ((⟨2, [str "a"], 1⟩ : Subscriber), (⟨2, [str "a"], 1⟩ : Subscriber))
      (by decide)).2 (by decide)

/-- C4: unsubscribing an endpoint that is not in the live set is a
no-op of the coordination loop: the guard fails, so the state is
returned unchanged — the live set is untouched and no close is
recorded (and the function is total, so no panic). -/
theorem unsubscribe_unknown_noop (st : BrokerState) (cid : Nat)
    (h : cid ∉ st.clients.map Subscriber.id) :
    handleUnregister st cid = st := by
  simp [handleUnregister, h]

/-- Witness for C4: unsubscribing endpoint 7 from a live set holding
only endpoint 1 changes nothing. -/
theorem unsubscribe_unknown_noop_witness :
    handleUnregister ⟨[⟨1, [], 10⟩], []⟩ 7 = ⟨[⟨1, [], 10⟩], []⟩ :=
  unsubscribe_unknown_noop ⟨[⟨1, [], 10⟩], []⟩ 7 (by decide)

/-- The response produced by the format dispatch of `handleGraph`
(internal/api/handlers.go), given a successful upstream fetch:
either the DOT text (status 200), an error body with its code
(`writeError`), or the JSON serialization of the graph (`writeJSON`,
status 200). -/
inductive GraphHandlerResponse where
  | dotOut (status : Nat) (body : GString) : GraphHandlerResponse
  | errOut (status : Nat) (code : GString) : GraphHandlerResponse
  | jsonOut (status : Nat) (g : Graph) : GraphHandlerResponse
deriving DecidableEq

/-- Go `strings.ReplaceAll(title, "\"", "\\\"")` in `Graph.ToDOT`:
replace every double quote by backslash-quote. -/
def escapeQuotes : GString → GString
  | [] => []
  | c :: rest =>
    if c = '"' then '\\' :: '"' :: escapeQuotes rest
    else c :: escapeQuotes rest

/-- The `statusColors` map literal of `Graph.ToDOT`; a missing key
yields the empty string, as a Go map lookup does. -/
def statusColorsLookup (s : Status) : GString :=
  if s = StatusPending then str "#3b82f6"
  else if s = StatusInProgress then str "#eab308"
  else if s = StatusDone then str "#22c55e"
  else if s = StatusBlocked then str "#ef4444"
  else []

/-- The node fill color: the map lookup with the `color == ""` gray
fallback of `Graph.ToDOT`. -/
def nodeColor (s : Status) : GString :=
  let color := statusColorsLookup s
  if color = [] then str "#6b7280" else color

/-- The `edgeStyles` map literal of `Graph.ToDOT`; a missing key
yields the empty string. -/
def edgeStylesLookup (t : EdgeType) : GString :=
  if t = EdgeTypeBlocks then str "color=\"#ef4444\", penwidth=2"
  else if t = EdgeTypeBlockedBy then str "color=\"#ef4444\", style=dashed"
  else if t = EdgeTypeParent then str "color=\"#6b7280\", style=dashed"
  else if t = EdgeTypeChild then str "color=\"#6b7280\", style=dotted"
  else if t = EdgeTypeWaitsFor then str "color=\"#f97316\", style=dashed"
  else if t = EdgeTypeConditional then str "color=\"#a855f7\", style=dashed"
  else if t = EdgeTypeRelates then str "color=\"#3b82f6\", style=dotted"
  else if t = EdgeTypeImplements then str "color=\"#22c55e\", style=bold"
  else []

/-- The edge style: the map lookup with the `style == ""` gray
fallback of `Graph.ToDOT`. -/
def edgeStyle (t : EdgeType) : GString :=
  let style := edgeStylesLookup t
  if style = [] then str "color=\"#9ca3af\"" else style

/-- One node statement of `Graph.ToDOT`:
`fmt.Sprintf("  \"%s\" [label=\"%s\", fillcolor=\"%s\",
style=\"filled,rounded\"];\n", node.ID, label, color)` with
`label := strings.ReplaceAll(node.Title, "\"", "\\\"")`. -/
def nodeLine (n : GraphNode) : GString :=
  str "  \"" ++ n.ID ++ str "\" [label=\"" ++ escapeQuotes n.Title ++
    str "\", fillcolor=\"" ++ nodeColor n.Status ++
    str "\", style=\"filled,rounded\"];\n"

/-- One edge statement of `Graph.ToDOT`:
`fmt.Sprintf("  \"%s\" -> \"%s\" [%s, label=\"%s\"];\n",
edge.From, edge.To, style, edge.Type)`. -/
def edgeLine (e : GraphEdge) : GString :=
  str "  \"" ++ e.From ++ str "\" -> \"" ++ e.To ++ str "\" [" ++
    edgeStyle e.EType ++ str ", label=\"" ++ e.EType ++ str "\"];\n"

/-- The node loop of `Graph.ToDOT`, concatenated in order. -/
def nodeLinesText : List GraphNode → GString
  | [] => []
  | n :: rest => nodeLine n ++ nodeLinesText rest

/-- The edge loop of `Graph.ToDOT`, concatenated in order. -/
def edgeLinesText : List GraphEdge → GString
  | [] => []
  | e :: rest => edgeLine e ++ edgeLinesText rest

/-- Go `Graph.ToDOT`: header, node statements, blank line, edge
statements, closing brace, in the order the strings.Builder writes
them. -/
def Graph.toDOT (g : Graph) : GString :=
  str "digraph dependencies \x7b\n" ++ str "  rankdir=LR;\n" ++
    str "  node [shape=box, style=rounded];\n\n" ++
    nodeLinesText g.Nodes ++ str "\n" ++ edgeLinesText g.Edges ++
    str "\x7d\n"

/-- The format dispatch of `handleGraph` (internal/api/handlers.go),
after a successful upstream fetch: normalize an absent/empty `format`
query value to "json", then switch — "dot" writes the DOT text with
status 200, "svg" writes a 501 NOT_IMPLEMENTED error, and every other
value falls through the switch to `writeJSON(w, http.StatusOK, graph)`. -/
def handleGraphFormat (format : GString) (g : Graph) : GraphHandlerResponse :=
  let fmt := if format = [] then str "json" else format
  if fmt = str "dot" then GraphHandlerResponse.dotOut 200 g.toDOT
  else if fmt = str "svg" then
    GraphHandlerResponse.errOut 501 (str "NOT_IMPLEMENTED")
  else GraphHandlerResponse.jsonOut 200 g

/-- C10: with a successful upstream fetch, format "dot" returns the
DOT text with status 200, format "svg" returns 501 NOT_IMPLEMENTED,
and every other format value — absent/empty (Go's `Get` returns "")
or any unrecognized string — returns the JSON graph with status 200,
not only the literal value "json". -/
theorem graph_format_dispatch (g : Graph) :
    handleGraphFormat (str "dot") g = GraphHandlerResponse.dotOut 200 g.toDOT ∧
    handleGraphFormat (str "svg") g =
      GraphHandlerResponse.errOut 501 (str "NOT_IMPLEMENTED") ∧
    (∀ f : GString, f ≠ str "dot" → f ≠ str "svg" →
      handleGraphFormat f g = GraphHandlerResponse.jsonOut 200 g) := by
  refine ⟨by simp [handleGraphFormat, str], by simp [handleGraphFormat, str], ?_⟩
  intro f hdot hsvg
  by_cases hempty : f = []
  · subst hempty; simp [handleGraphFormat, str]
  · simp [handleGraphFormat, hempty, hdot, hsvg]

/-- Witness for C10: the empty (absent) format and the unrecognized
format "yaml" both fall back to the 200 JSON response. -/
theorem graph_format_dispatch_witness :
    handleGraphFormat [] newGraph = GraphHandlerResponse.jsonOut 200 newGraph ∧
    handleGraphFormat (str "yaml") newGraph =
      GraphHandlerResponse.jsonOut 200 newGraph :=
  ⟨(graph_format_dispatch newGraph).2.2 [] (by decide) (by decide),
   (graph_format_dispatch newGraph).2.2 (str "yaml") (by decide) (by decide)⟩

/-- One entry of a bd issue's `dependencies` / `dependents` array: an
issue identifier plus the `dependency_type` string. -/
structure BdDep where
  ID : GString
  DepType : GString
deriving DecidableEq

/-- One bd issue as parsed by `ParseIssueList` and consumed by
`CLIAdapter.Graph`: identity and display fields plus the three
relationship lists. -/
structure BdIssue where
  ID : GString
  Title : GString
  Status : GString
  Priority : GString
  Dependencies : List BdDep
  Dependents : List BdDep
  BlockedBy : List GString
deriving DecidableEq

/-- One entry of the separate `bd blocked --json` listing as parsed by
`ParseBlockedList`: the blocked issue's identifier plus its blockers. -/
structure BdBlocked where
  ID : GString
  BlockedBy : List GString
deriving DecidableEq

/-- Modelled from the spec: `mapStatus` (internal/beads, file not under
src/) carries the bd status string into the `model.Status` enum the
spec fixes as pending / in_progress / done / blocked; modelled as the
identity on the status string. No claim inspects its output. -/
def mapStatus (s : GString) : Status := s

/-- Modelled from the spec: `mapPriority` (internal/beads, file not
under src/), the priority counterpart of `mapStatus`; modelled as the
identity. No claim inspects its output. -/
def mapPriority (p : GString) : Priority := p

/-- The mutable state of `CLIAdapter.Graph` while it builds: the graph
under construction, the `nodeMap` node-id set, and the `edgeSet`
dedup-key set (Go maps to bool, modelled as lists with decidable
membership). -/
structure BuildState where
  graph : Graph
  nodeMap : List GString
  edgeSet : List GString

/-- The first loop of `CLIAdapter.Graph`: add one node per issue
(status and priority mapped) and record its id in `nodeMap`. -/
def addNodesLoop : BuildState → List BdIssue → BuildState
  | st, [] => st
  | st, bi :: rest =>
    addNodesLoop
      { graph := st.graph.addNode
          ⟨bi.ID, bi.Title, mapStatus bi.Status, mapPriority bi.Priority⟩
        nodeMap := st.nodeMap ++ [bi.ID]
        edgeSet := st.edgeSet } rest

/-- The `bi.Dependencies` inner loop of `CLIAdapter.Graph`: key
`bi.ID + "->" + dep.ID + ":" + edgeType`, guarded by
`nodeMap[dep.ID] && !edgeSet[edgeKey]`, adding the edge
`From: dep.ID, To: bi.ID`. -/
def depsLoop (biID : GString) : BuildState → List BdDep → BuildState
  | st, [] => st
  | st, dep :: rest =>
    let edgeType := mapDepTypeToEdgeType dep.DepType
    let edgeKey := biID ++ str "->" ++ dep.ID ++ str ":" ++ edgeType
    if dep.ID ∈ st.nodeMap ∧ edgeKey ∉ st.edgeSet then
      depsLoop biID
        { graph := st.graph.addEdge ⟨dep.ID, biID, edgeType⟩
          nodeMap := st.nodeMap
          edgeSet := st.edgeSet ++ [edgeKey] } rest
    else depsLoop biID st rest

/-- The `bi.Dependents` inner loop of `CLIAdapter.Graph`: key
`dep.ID + "->" + bi.ID + ":" + edgeType`, guarded the same way,
adding the inverted edge `From: bi.ID, To: dep.ID`. -/
def dependentsLoop (biID : GString) : BuildState → List BdDep → BuildState
  | st, [] => st
  | st, dep :: rest =>
    let edgeType := mapDepTypeToEdgeType dep.DepType
    let edgeKey := dep.ID ++ str "->" ++ biID ++ str ":" ++ edgeType
    if dep.ID ∈ st.nodeMap ∧ edgeKey ∉ st.edgeSet then
      dependentsLoop biID
        { graph := st.graph.addEdge ⟨biID, dep.ID, edgeType⟩
          nodeMap := st.nodeMap
          edgeSet := st.edgeSet ++ [edgeKey] } rest
    else dependentsLoop biID st rest

/-- The `bi.BlockedBy` inner loop of `CLIAdapter.Graph`: key
`blockerID + "->" + bi.ID + ":blocks"`, guarded by
`nodeMap[blockerID] && !edgeSet[edgeKey]`, adding the edge
`From: blockerID, To: bi.ID` of type blocks. -/
def blockedByLoop (biID : GString) : BuildState → List GString → BuildState
  | st, [] => st
  | st, blockerID :: rest =>
    let edgeKey := blockerID ++ str "->" ++ biID ++ str ":blocks"
    if blockerID ∈ st.nodeMap ∧ edgeKey ∉ st.edgeSet then
      blockedByLoop biID
        { graph := st.graph.addEdge ⟨blockerID, biID, EdgeTypeBlocks⟩
          nodeMap := st.nodeMap
          edgeSet := st.edgeSet ++ [edgeKey] } rest
    else blockedByLoop biID st rest

/-- The body of the second (edge-extraction) loop of
`CLIAdapter.Graph` for one issue: dependencies, then dependents, then
the explicit blocked_by list. -/
def processIssueEdges (st : BuildState) (bi : BdIssue) : BuildState :=
  blockedByLoop bi.ID
    (dependentsLoop bi.ID (depsLoop bi.ID st bi.Dependencies) bi.Dependents)
    bi.BlockedBy

/-- The second loop of `CLIAdapter.Graph` over all issues. -/
def edgesLoop : BuildState → List BdIssue → BuildState
  | st, [] => st
  | st, bi :: rest => edgesLoop (processIssueEdges st bi) rest

/-- The inner loop over one blocked entry's `BlockedBy` in the final
section of `CLIAdapter.Graph`: key `blockerID + "->" + bi.ID +
":blocks"`, guarded by `nodeMap[blockerID] && nodeMap[bi.ID] &&
!edgeSet[edgeKey]`. -/
def blockedEntryLoop (biID : GString) : BuildState → List GString → BuildState
  | st, [] => st
  | st, blockerID :: rest =>
    let edgeKey := blockerID ++ str "->" ++ biID ++ str ":blocks"
    if blockerID ∈ st.nodeMap ∧ biID ∈ st.nodeMap ∧ edgeKey ∉ st.edgeSet then
      blockedEntryLoop biID
        { graph := st.graph.addEdge ⟨blockerID, biID, EdgeTypeBlocks⟩
          nodeMap := st.nodeMap
          edgeSet := st.edgeSet ++ [edgeKey] } rest
    else blockedEntryLoop biID st rest

/-- The final section of `CLIAdapter.Graph` over the parsed
`bd blocked --json` listing. -/
def blockedListLoop : BuildState → List BdBlocked → BuildState
  | st, [] => st
  | st, bi :: rest => blockedListLoop (blockedEntryLoop bi.ID st bi.BlockedBy) rest

/-- Go `CLIAdapter.Graph` after a successful `bd list --json` fetch and
parse: build the node set, extract edges from the three per-issue
sources, then merge the separate blocked listing. `blocked = none`
models the silently-skipped case where the `bd blocked` subprocess or
its parse fails (`if err == nil { if parseErr == nil { ... } }`). -/
def buildGraph (issues : List BdIssue) (blocked : Option (List BdBlocked)) :
    Graph :=
  let st1 := addNodesLoop ⟨newGraph, [], []⟩ issues
  let st2 := edgesLoop st1 issues
  let st3 := match blocked with
    | none => st2
    | some blockedIssues => blockedListLoop st2 blockedIssues
  st3.graph

/-- The failing input for the deduplication invariant: issue A reports
its relationship to B both in its forward dependency list (type
"blocks") and in its explicit blocked_by list. -/
def dupIssueA : BdIssue :=
  ⟨str "A", str "A", str "blocked", str "1",
   [⟨str "B", str "blocks"⟩], [], [str "B"]⟩

/-- The second issue of the failing input, with no relationships. -/
def dupIssueB : BdIssue :=
  ⟨str "B", str "B", str "done", str "1", [], [], []⟩

/-- C1 (code bug): the dedup key for the dependency/dependent sources
is written depender->dependee while the edge it guards runs
dependee->depender, but the blocked_by sources key blocker->blocked in
edge direction; so the same relationship reported by a forward
dependency ("A->B:blocks") and by a blocked_by entry ("B->A:blocks")
produces two identical (B, A, blocks) edges, violating the invariant
that no two edges share a (from, to, type) triple — the very thing the
code's `edgeSet` ("prevent duplicate edges") is there to stop. -/
theorem graph_dedup_failing :
    (buildGraph [dupIssueA, dupIssueB] none).Edges =
      [⟨str "B", str "A", EdgeTypeBlocks⟩,
       ⟨str "B", str "A", EdgeTypeBlocks⟩] ∧
    ¬ (buildGraph [dupIssueA, dupIssueB] none).Edges.Nodup := by
  exact ⟨by decide, by decide⟩

lemma depsLoop_edges (biID : GString) (deps : List BdDep) :
    ∀ st : BuildState, ∃ news,
      (depsLoop biID st deps).graph.Edges = st.graph.Edges ++ news ∧
      ∀ e ∈ news, ∃ dep, dep ∈ deps ∧
        e = ⟨dep.ID, biID, mapDepTypeToEdgeType dep.DepType⟩ := by
  induction deps with
  | nil => intro st; exact ⟨[], by simp [depsLoop], by simp⟩
  | cons dep rest ih =>
    intro st
    simp only [depsLoop]
    split
    · obtain ⟨news, hE, hM⟩ := ih
        { graph := st.graph.addEdge ⟨dep.ID, biID, mapDepTypeToEdgeType dep.DepType⟩
          nodeMap := st.nodeMap
          edgeSet := st.edgeSet ++
            [biID ++ str "->" ++ dep.ID ++ str ":" ++ mapDepTypeToEdgeType dep.DepType] }
      refine ⟨⟨dep.ID, biID, mapDepTypeToEdgeType dep.DepType⟩ :: news, ?_, ?_⟩
      · rw [hE]; simp [Graph.addEdge]
      · intro e he
        cases he with
        | head => exact ⟨dep, List.mem_cons_self dep rest, rfl⟩
        | tail _ h2 =>
          obtain ⟨d, hd, he2⟩ := hM e h2
          exact ⟨d, List.mem_cons_of_mem dep hd, he2⟩
    · obtain ⟨news, hE, hM⟩ := ih st
      refine ⟨news, hE, ?_⟩
      intro e he
      obtain ⟨d, hd, he2⟩ := hM e he
      exact ⟨d, List.mem_cons_of_mem dep hd, he2⟩

lemma dependentsLoop_edges (biID : GString) (deps : List BdDep) :
    ∀ st : BuildState, ∃ news,
      (dependentsLoop biID st deps).graph.Edges = st.graph.Edges ++ news ∧
      ∀ e ∈ news, ∃ dep, dep ∈ deps ∧
        e = ⟨biID, dep.ID, mapDepTypeToEdgeType dep.DepType⟩ := by
  induction deps with
  | nil => intro st; exact ⟨[], by simp [dependentsLoop], by simp⟩
  | cons dep rest ih =>
    intro st
    simp only [dependentsLoop]
    split
    · obtain ⟨news, hE, hM⟩ := ih
        { graph := st.graph.addEdge ⟨biID, dep.ID, mapDepTypeToEdgeType dep.DepType⟩
          nodeMap := st.nodeMap
          edgeSet := st.edgeSet ++
            [dep.ID ++ str "->" ++ biID ++ str ":" ++ mapDepTypeToEdgeType dep.DepType] }
      refine ⟨⟨biID, dep.ID, mapDepTypeToEdgeType dep.DepType⟩ :: news, ?_, ?_⟩
      · rw [hE]; simp [Graph.addEdge]
      · intro e he
        cases he with
        | head => exact ⟨dep, List.mem_cons_self dep rest, rfl⟩
        | tail _ h2 =>
          obtain ⟨d, hd, he2⟩ := hM e h2
          exact ⟨d, List.mem_cons_of_mem dep hd, he2⟩
    · obtain ⟨news, hE, hM⟩ := ih st
      refine ⟨news, hE, ?_⟩
      intro e he
      obtain ⟨d, hd, he2⟩ := hM e he
      exact ⟨d, List.mem_cons_of_mem dep hd, he2⟩

/-- Issue A of the spec's end-to-end scenario: status blocked, one
forward dependency on B of type "blocks". -/
def scenarioIssueA : BdIssue :=
  ⟨str "A", str "A", str "blocked", str "1",
   [⟨str "B", str "blocks"⟩], [], []⟩

/-- Issue B of the spec's end-to-end scenario: status done, no
relationships. -/
def scenarioIssueB : BdIssue :=
  ⟨str "B", str "B", str "done", str "1", [], [], []⟩

/-- C6: every edge the forward-dependency loop adds runs from the
dependency to the owning issue, every edge the dependents loop adds
runs from the owning issue to the dependent, and the spec's end-to-end
scenario — A blocked, B done, A depends_on B (type blocks) — builds
nodes [A, B], the single edge (B, A, blocks), node_count 2 and
edge_count 1. -/
theorem edge_directions_and_scenario :
    (∀ (biID : GString) (st : BuildState) (deps : List BdDep),
      ∃ news, (depsLoop biID st deps).graph.Edges = st.graph.Edges ++ news ∧
        ∀ e ∈ news, ∃ dep, dep ∈ deps ∧
          e = ⟨dep.ID, biID, mapDepTypeToEdgeType dep.DepType⟩) ∧
    (∀ (biID : GString) (st : BuildState) (deps : List BdDep),
      ∃ news, (dependentsLoop biID st deps).graph.Edges = st.graph.Edges ++ news ∧
        ∀ e ∈ news, ∃ dep, dep ∈ deps ∧
          e = ⟨biID, dep.ID, mapDepTypeToEdgeType dep.DepType⟩) ∧
    ((buildGraph [scenarioIssueA, scenarioIssueB] none).Nodes.map GraphNode.ID =
        [str "A", str "B"] ∧
      (buildGraph [scenarioIssueA, scenarioIssueB] none).Edges =
        [⟨str "B", str "A", EdgeTypeBlocks⟩] ∧
      (buildGraph [scenarioIssueA, scenarioIssueB] none).Stats.NodeCount = 2 ∧
      (buildGraph [scenarioIssueA, scenarioIssueB] none).Stats.EdgeCount = 1) :=
  ⟨fun biID st deps => depsLoop_edges biID deps st,
   fun biID st deps => dependentsLoop_edges biID deps st,
   by decide, by decide, by decide, by decide⟩

/-- Witness for C6 at a concrete loop state: processing issue A's
single forward dependency on B from an empty graph whose node set
holds B. -/
theorem edge_directions_witness :
    ∃ news,
      (depsLoop (str "A") ⟨newGraph, [str "B"], []⟩
          [⟨str "B", str "blocks"⟩]).graph.Edges =
        (⟨newGraph, [str "B"], []⟩ : BuildState).graph.Edges ++ news ∧
      ∀ e ∈ news, ∃ dep, dep ∈ [(⟨str "B", str "blocks"⟩ : BdDep)] ∧
        e = ⟨dep.ID, str "A", mapDepTypeToEdgeType dep.DepType⟩ :=
  edge_directions_and_scenario.1 (str "A") ⟨newGraph, [str "B"], []⟩
    [⟨str "B", str "blocks"⟩]

/-- Both endpoints of every edge lie in the node-id set `nm`, and the
edge tally matches the edge list (so a dropped record also leaves
`edge_count` untouched). -/
def EdgesOK (nm : List GString) (g : Graph) : Prop :=
  (∀ e ∈ g.Edges, e.From ∈ nm ∧ e.To ∈ nm) ∧
    g.Stats.EdgeCount = g.Edges.length

lemma addEdge_edgesOK {nm : List GString} {g : Graph} {e : GraphEdge}
    (hg : EdgesOK nm g) (hf : e.From ∈ nm) (ht : e.To ∈ nm) :
    EdgesOK nm (g.addEdge e) := by
  obtain ⟨hmem, hcount⟩ := hg
  constructor
  · intro x hx
    rw [Graph.addEdge] at hx
    simp only [List.mem_append, List.mem_singleton] at hx
    rcases hx with hx | rfl
    · exact hmem x hx
    · exact ⟨hf, ht⟩
  · simp [Graph.addEdge, hcount]

lemma depsLoop_inv (biID : GString) (nm : List GString) (deps : List BdDep) :
    ∀ st : BuildState, st.nodeMap = nm → biID ∈ nm → EdgesOK nm st.graph →
      (depsLoop biID st deps).nodeMap = nm ∧
      EdgesOK nm (depsLoop biID st deps).graph := by
  induction deps with
  | nil => intro st hnm _ hok; exact ⟨by simp [depsLoop, hnm], by simp [depsLoop, hok]⟩
  | cons dep rest ih =>
    intro st hnm hbi hok
    simp only [depsLoop]
    split
    case isTrue h =>
      exact ih _ hnm hbi (addEdge_edgesOK hok (hnm ▸ h.1) hbi)
    case isFalse h =>
      exact ih st hnm hbi hok

lemma dependentsLoop_inv (biID : GString) (nm : List GString)
    (deps : List BdDep) :
    ∀ st : BuildState, st.nodeMap = nm → biID ∈ nm → EdgesOK nm st.graph →
      (dependentsLoop biID st deps).nodeMap = nm ∧
      EdgesOK nm (dependentsLoop biID st deps).graph := by
  induction deps with
  | nil =>
    intro st hnm _ hok
    exact ⟨by simp [dependentsLoop, hnm], by simp [dependentsLoop, hok]⟩
  | cons dep rest ih =>
    intro st hnm hbi hok
    simp only [dependentsLoop]
    split
    case isTrue h =>
      exact ih _ hnm hbi (addEdge_edgesOK hok hbi (hnm ▸ h.1))
    case isFalse h =>
      exact ih st hnm hbi hok

lemma blockedByLoop_inv (biID : GString) (nm : List GString)
    (blockers : List GString) :
    ∀ st : BuildState, st.nodeMap = nm → biID ∈ nm → EdgesOK nm st.graph →
      (blockedByLoop biID st blockers).nodeMap = nm ∧
      EdgesOK nm (blockedByLoop biID st blockers).graph := by
  induction blockers with
  | nil =>
    intro st hnm _ hok
    exact ⟨by simp [blockedByLoop, hnm], by simp [blockedByLoop, hok]⟩
  | cons blockerID rest ih =>
    intro st hnm hbi hok
    simp only [blockedByLoop]
    split
    case isTrue h =>
      exact ih _ hnm hbi (addEdge_edgesOK hok (hnm ▸ h.1) hbi)
    case isFalse h =>
      exact ih st hnm hbi hok

lemma processIssueEdges_inv (bi : BdIssue) (nm : List GString)
    (st : BuildState) (hnm : st.nodeMap = nm) (hbi : bi.ID ∈ nm)
    (hok : EdgesOK nm st.graph) :
    (processIssueEdges st bi).nodeMap = nm ∧
      EdgesOK nm (processIssueEdges st bi).graph := by
  have h1 := depsLoop_inv bi.ID nm bi.Dependencies st hnm hbi hok
  have h2 := dependentsLoop_inv bi.ID nm bi.Dependents _ h1.1 hbi h1.2
  exact blockedByLoop_inv bi.ID nm bi.BlockedBy _ h2.1 hbi h2.2

lemma edgesLoop_inv (nm : List GString) (issues : List BdIssue) :
    ∀ st : BuildState, st.nodeMap = nm → (∀ bi ∈ issues, bi.ID ∈ nm) →
      EdgesOK nm st.graph →
      (edgesLoop st issues).nodeMap = nm ∧
      EdgesOK nm (edgesLoop st issues).graph := by
  induction issues with
  | nil => intro st hnm _ hok; exact ⟨by simp [edgesLoop, hnm], by simp [edgesLoop, hok]⟩
  | cons bi rest ih =>
    intro st hnm hall hok
    have h1 := processIssueEdges_inv bi nm st hnm
      (hall bi (List.mem_cons_self bi rest)) hok
    exact ih _ h1.1 (fun x hx => hall x (List.mem_cons_of_mem bi hx)) h1.2

lemma blockedEntryLoop_inv (biID : GString) (nm : List GString)
    (blockers : List GString) :
    ∀ st : BuildState, st.nodeMap = nm → EdgesOK nm st.graph →
      (blockedEntryLoop biID st blockers).nodeMap = nm ∧
      EdgesOK nm (blockedEntryLoop biID st blockers).graph := by
  induction blockers with
  | nil =>
    intro st hnm hok
    exact ⟨by simp [blockedEntryLoop, hnm], by simp [blockedEntryLoop, hok]⟩
  | cons blockerID rest ih =>
    intro st hnm hok
    simp only [blockedEntryLoop]
    split
    case isTrue h =>
      exact ih _ hnm (addEdge_edgesOK hok (hnm ▸ h.1) (hnm ▸ h.2.1))
    case isFalse h =>
      exact ih st hnm hok

lemma blockedListLoop_inv (nm : List GString) (blockedIssues : List BdBlocked) :
    ∀ st : BuildState, st.nodeMap = nm → EdgesOK nm st.graph →
      (blockedListLoop st blockedIssues).nodeMap = nm ∧
      EdgesOK nm (blockedListLoop st blockedIssues).graph := by
  induction blockedIssues with
  | nil =>
    intro st hnm hok
    exact ⟨by simp [blockedListLoop, hnm], by simp [blockedListLoop, hok]⟩
  | cons bi rest ih =>
    intro st hnm hok
    have h1 := blockedEntryLoop_inv bi.ID nm bi.BlockedBy st hnm hok
    exact ih _ h1.1 h1.2

lemma addNodesLoop_spec (issues : List BdIssue) :
    ∀ st : BuildState,
      (addNodesLoop st issues).nodeMap = st.nodeMap ++ issues.map BdIssue.ID ∧
      (addNodesLoop st issues).graph.Edges = st.graph.Edges ∧
      (addNodesLoop st issues).graph.Stats.EdgeCount =
        st.graph.Stats.EdgeCount := by
  induction issues with
  | nil => intro st; simp [addNodesLoop]
  | cons bi rest ih =>
    intro st
    simp only [addNodesLoop]
    obtain ⟨h1, h2, h3⟩ := ih
      { graph := st.graph.addNode
          ⟨bi.ID, bi.Title, mapStatus bi.Status, mapPriority bi.Priority⟩
        nodeMap := st.nodeMap ++ [bi.ID]
        edgeSet := st.edgeSet }
    refine ⟨?_, ?_, ?_⟩
    · rw [h1]; simp
    · rw [h2]; simp [Graph.addNode]
    · rw [h3]; simp [Graph.addNode]

/-- C5: for every input, every edge of the built graph has both
endpoints among the node ids built in step 1 (so a relationship record
with an unknown endpoint yields no edge, for all four sources
including the separate blocked listing), and the edge tally equals the
number of edges (so a dropped record does not bump `edge_count`); the
builder is a total function, so the drop is silent, never an error. -/
theorem dangling_edges_suppressed (issues : List BdIssue)
    (blocked : Option (List BdBlocked)) :
    (∀ e ∈ (buildGraph issues blocked).Edges,
      e.From ∈ issues.map BdIssue.ID ∧ e.To ∈ issues.map BdIssue.ID) ∧
    (buildGraph issues blocked).Stats.EdgeCount =
      (buildGraph issues blocked).Edges.length := by
  have hn := addNodesLoop_spec issues (⟨newGraph, [], []⟩ : BuildState)
  have hok1 : EdgesOK (issues.map BdIssue.ID)
      (addNodesLoop ⟨newGraph, [], []⟩ issues).graph := by
    constructor
    · intro e he
      rw [hn.2.1] at he
      simp [newGraph] at he
    · rw [hn.2.1, hn.2.2]; simp [newGraph]
  have hnm1 : (addNodesLoop (⟨newGraph, [], []⟩ : BuildState) issues).nodeMap =
      issues.map BdIssue.ID := by rw [hn.1]; simp
  have h2 := edgesLoop_inv (issues.map BdIssue.ID) issues _ hnm1
    (fun bi hbi => List.mem_map_of_mem BdIssue.ID hbi) hok1
  cases blocked with
  | none => exact ⟨h2.2.1, h2.2.2⟩
  | some blockedIssues =>
    have h3 := blockedListLoop_inv (issues.map BdIssue.ID) blockedIssues _
      h2.1 h2.2
    exact ⟨h3.2.1, h3.2.2⟩

/-- Witness for C5: one issue whose dependency, dependent and blockers
all reference unknown ids, plus a blocked listing referencing unknown
ids; every record is dropped and the graph has no edges with
edge_count 0. -/
theorem dangling_edges_suppressed_witness :
    (buildGraph
        [⟨str "A", str "A", str "pending", str "1",
          [⟨str "Z", str "blocks"⟩], [⟨str "Y", str "blocks"⟩], [str "X"]⟩]
        (some [⟨str "A", [str "W"]⟩, ⟨str "Q", [str "A"]⟩])).Edges = [] ∧
    (∀ e ∈ (buildGraph
        [⟨str "A", str "A", str "pending", str "1",
          [⟨str "Z", str "blocks"⟩], [⟨str "Y", str "blocks"⟩], [str "X"]⟩]
        (some [⟨str "A", [str "W"]⟩, ⟨str "Q", [str "A"]⟩])).Edges,
      e.From ∈ [str "A"] ∧ e.To ∈ [str "A"]) ∧
    (buildGraph
        [⟨str "A", str "A", str "pending", str "1",
          [⟨str "Z", str "blocks"⟩], [⟨str "Y", str "blocks"⟩], [str "X"]⟩]
        (some [⟨str "A", [str "W"]⟩, ⟨str "Q", [str "A"]⟩])).Stats.EdgeCount =
      (buildGraph
        [⟨str "A", str "A", str "pending", str "1",
          [⟨str "Z", str "blocks"⟩], [⟨str "Y", str "blocks"⟩], [str "X"]⟩]
        (some [⟨str "A", [str "W"]⟩, ⟨str "Q", [str "A"]⟩])).Edges.length := by
  refine ⟨by decide, ?_⟩
  have h := dangling_edges_suppressed
    [⟨str "A", str "A", str "pending", str "1",
      [⟨str "Z", str "blocks"⟩], [⟨str "Y", str "blocks"⟩], [str "X"]⟩]
    (some [⟨str "A", [str "W"]⟩, ⟨str "Q", [str "A"]⟩])
  exact ⟨fun e he => by simpa using h.1 e he, h.2⟩

/-- Scanner state for DOT double-quoted strings: outside any quoted
string, inside one, or inside one right after a backslash (the escape
position, where a following quote does not close the string). -/
inductive QState where
  | outside : QState
  | inside : QState
  | esc : QState
deriving DecidableEq

/-- One character of the DOT quoted-string scanner. -/
def dotStep (q : QState) (c : Char) : QState :=
  match q with
  | QState.outside => if c = '"' then QState.inside else QState.outside
  | QState.inside =>
    if c = '"' then QState.outside
    else if c = '\\' then QState.esc
    else QState.inside
  | QState.esc => QState.inside

/-- Run the quoted-string scanner over a string. Ending `outside` is a
necessary condition for the text to be syntactically valid DOT: ending
inside means an unterminated quoted string, and a desynchronized close
puts label text outside any string. -/
def dfaRun (q : QState) (s : GString) : QState :=
  s.foldl dotStep q

lemma dfaRun_append (q : QState) (a b : GString) :
    dfaRun q (a ++ b) = dfaRun (dfaRun q a) b := by
  simp [dfaRun]

/-- The string holds neither a double quote nor a backslash. -/
def CleanStr (s : GString) : Prop :=
  ∀ c ∈ s, c ≠ '"' ∧ c ≠ '\\'

/-- The string holds no backslash. -/
def NoBackslash (s : GString) : Prop :=
  ∀ c ∈ s, c ≠ '\\'

instance (s : GString) : Decidable (CleanStr s) :=
  inferInstanceAs (Decidable (∀ c ∈ s, c ≠ '"' ∧ c ≠ '\\'))

instance (s : GString) : Decidable (NoBackslash s) :=
  inferInstanceAs (Decidable (∀ c ∈ s, c ≠ '\\'))

lemma run_inside_clean (s : GString) :
    CleanStr s → dfaRun QState.inside s = QState.inside := by
  induction s with
  | nil => intro _; rfl
  | cons c rest ih =>
    intro h
    have hc := h c (List.mem_cons_self c rest)
    have h1 : dotStep QState.inside c = QState.inside := by
      simp [dotStep, hc.1, hc.2]
    simp only [dfaRun, List.foldl_cons]
    rw [h1]
    exact ih (fun x hx => h x (List.mem_cons_of_mem c hx))

lemma run_inside_escaped (t : GString) :
    NoBackslash t → dfaRun QState.inside (escapeQuotes t) = QState.inside := by
  induction t with
  | nil => intro _; rfl
  | cons c rest ih =>
    intro h
    by_cases hc : c = '"'
    · subst hc
      have hesc : escapeQuotes ('"' :: rest) = '\\' :: '"' :: escapeQuotes rest := by
        simp [escapeQuotes]
      rw [hesc]
      simp only [dfaRun, List.foldl_cons]
      rw [show dotStep QState.inside '\\' = QState.esc from by decide,
        show dotStep QState.esc '"' = QState.inside from rfl]
      exact ih (fun x hx => h x (List.mem_cons_of_mem _ hx))
    · have hb : c ≠ '\\' := h c (List.mem_cons_self c rest)
      simp only [escapeQuotes, if_neg hc]
      simp only [dfaRun, List.foldl_cons]
      rw [show dotStep QState.inside c = QState.inside from by
        simp [dotStep, hc, hb]]
      exact ih (fun x hx => h x (List.mem_cons_of_mem c hx))

lemma statusColorsLookup_clean (s : Status) :
    CleanStr (statusColorsLookup s) := by
  unfold statusColorsLookup
  repeat' split
  all_goals decide

lemma nodeColor_clean (s : Status) : CleanStr (nodeColor s) := by
  simp only [nodeColor]
  split
  · decide
  · exact statusColorsLookup_clean s

lemma edgeStylesLookup_out (t : EdgeType) :
    dfaRun QState.outside (edgeStylesLookup t) = QState.outside := by
  unfold edgeStylesLookup
  repeat' split
  all_goals decide

lemma edgeStyle_out (t : EdgeType) :
    dfaRun QState.outside (edgeStyle t) = QState.outside := by
  simp only [edgeStyle]
  split
  · decide
  · exact edgeStylesLookup_out t

lemma nodeLine_out (n : GraphNode) (hid : CleanStr n.ID)
    (ht : NoBackslash n.Title) :
    dfaRun QState.outside (nodeLine n) = QState.outside := by
  simp only [nodeLine, dfaRun_append]
  rw [show dfaRun QState.outside (str "  \"") = QState.inside from by decide,
    run_inside_clean n.ID hid,
    show dfaRun QState.inside (str "\" [label=\"") = QState.inside from by decide,
    run_inside_escaped n.Title ht,
    show dfaRun QState.inside (str "\", fillcolor=\"") = QState.inside from by decide,
    run_inside_clean (nodeColor n.Status) (nodeColor_clean n.Status)]
  decide

lemma edgeLine_out (e : GraphEdge) (hf : CleanStr e.From)
    (ht : CleanStr e.To) (hty : CleanStr e.EType) :
    dfaRun QState.outside (edgeLine e) = QState.outside := by
  simp only [edgeLine, dfaRun_append]
  rw [show dfaRun QState.outside (str "  \"") = QState.inside from by decide,
    run_inside_clean e.From hf,
    show dfaRun QState.inside (str "\" -> \"") = QState.inside from by decide,
    run_inside_clean e.To ht,
    show dfaRun QState.inside (str "\" [") = QState.outside from by decide,
    edgeStyle_out e.EType,
    show dfaRun QState.outside (str ", label=\"") = QState.inside from by decide,
    run_inside_clean e.EType hty]
  decide

lemma nodeLinesText_out (ns : List GraphNode)
    (h : ∀ n ∈ ns, CleanStr n.ID ∧ NoBackslash n.Title) :
    dfaRun QState.outside (nodeLinesText ns) = QState.outside := by
  induction ns with
  | nil => rfl
  | cons n rest ih =>
    have hn := h n (List.mem_cons_self n rest)
    simp only [nodeLinesText, dfaRun_append]
    rw [nodeLine_out n hn.1 hn.2]
    exact ih (fun x hx => h x (List.mem_cons_of_mem n hx))

lemma edgeLinesText_out (es : List GraphEdge)
    (h : ∀ e ∈ es, CleanStr e.From ∧ CleanStr e.To ∧ CleanStr e.EType) :
    dfaRun QState.outside (edgeLinesText es) = QState.outside := by
  induction es with
  | nil => rfl
  | cons e rest ih =>
    have he := h e (List.mem_cons_self e rest)
    simp only [edgeLinesText, dfaRun_append]
    rw [edgeLine_out e he.1 he.2.1 he.2.2]
    exact ih (fun x hx => h x (List.mem_cons_of_mem e hx))

/-- The amended C8: every double quote in a node title is escaped (the
label embeds `escapeQuotes Title`, and `run_inside_escaped` shows the
escaped label never breaks out of the quoted string), and the DOT
output stays quote-balanced — provided node ids, edge endpoints and
edge types hold no quote and no backslash, and titles hold no
backslash. Unescaped quotes in ids/endpoints, or a backslash ending a
title, are not protected (see the counterexample). -/
theorem toDOT_escaped_balanced (g : Graph)
    (hn : ∀ n ∈ g.Nodes, CleanStr n.ID ∧ NoBackslash n.Title)
    (he : ∀ e ∈ g.Edges, CleanStr e.From ∧ CleanStr e.To ∧ CleanStr e.EType) :
    dfaRun QState.outside g.toDOT = QState.outside := by
  simp only [Graph.toDOT, dfaRun_append]
  rw [show dfaRun QState.outside (str "digraph dependencies \x7b\n") =
      QState.outside from by decide,
    show dfaRun QState.outside (str "  rankdir=LR;\n") = QState.outside from by
      decide,
    show dfaRun QState.outside (str "  node [shape=box, style=rounded];\n\n") =
      QState.outside from by decide,
    nodeLinesText_out g.Nodes hn,
    show dfaRun QState.outside (str "\n") = QState.outside from by decide,
    edgeLinesText_out g.Edges he]
  decide

/-- A graph whose node title contains a double quote (as the claim's
scope requires) and ends with a backslash. -/
def backslashTitleGraph : Graph :=
  ⟨[⟨str "A", str "say \"hi\\", str "done", str "1"⟩], [], ⟨1, 0, 0⟩⟩

set_option maxRecDepth 4000 in
/-- Counterexample to C8 as stated: `ToDOT` escapes only the double
quotes of the title, so a title ending in a backslash yields the label
text `say \"hi\` whose trailing backslash escapes the label's closing
quote; the scanner ends the whole output still inside a quoted string
— an unterminated quoted string, hence not syntactically valid DOT —
even though every double quote of the title was escaped. -/
theorem toDOT_validity_cx :
    (∃ n ∈ backslashTitleGraph.Nodes, '"' ∈ n.Title) ∧
    dfaRun QState.outside backslashTitleGraph.toDOT ≠ QState.outside := by
  exact ⟨by decide, by decide⟩

/-- Witness for the amended C8: a graph whose single node title holds
double quotes; the hypotheses hold and the output is balanced. -/
theorem toDOT_escaped_balanced_witness :
    (∀ n ∈ (⟨[⟨str "A", str "say \"hi\"", str "done", str "1"⟩],
        [⟨str "A", str "A", EdgeTypeBlocks⟩], ⟨1, 1, 0⟩⟩ : Graph).Nodes,
      CleanStr n.ID ∧ NoBackslash n.Title) ∧
    dfaRun QState.outside
      (⟨[⟨str "A", str "say \"hi\"", str "done", str "1"⟩],
        [⟨str "A", str "A", EdgeTypeBlocks⟩], ⟨1, 1, 0⟩⟩ : Graph).toDOT =
      QState.outside :=
  ⟨by decide,
   toDOT_escaped_balanced
     ⟨[⟨str "A", str "say \"hi\"", str "done", str "1"⟩],
      [⟨str "A", str "A", EdgeTypeBlocks⟩], ⟨1, 1, 0⟩⟩
     (by decide) (by decide)⟩
